import Mathlib

/-!
Shallow embedding of the e-commerce backend in `App.py`
(Flask + SQLAlchemy + SQLite, three tables: User, Product, CartItem).

The database is a record of three tables, each a list of rows in insertion
order, together with the next auto-increment primary key for the tables the
application inserts into.  Every route handler becomes a pure function from
a database (plus the request data and, for authenticated routes, the id of
`current_user`) to an HTTP status together with the new database and/or the
response payload.  `Product.query.get pid` becomes `List.find?` on the id
column; `filter_by` becomes `List.filter`/`List.find?`; a crash of the
Python code (attribute access on `None`) is modelled by `Option`, with
`none` standing for the unhandled exception.
-/

namespace ECommerce

/-- Row of the `User` table: integer primary key, unique non-null username,
nullable password (`db.Column(db.String(80), nullable=True)`). -/
structure User where
  id : Nat
  username : String
  password : Option String
deriving Repr, DecidableEq

/-- Row of the `Product` table: integer primary key, non-null name, non-null
numeric price (modelled as `Rat`), nullable text description. -/
structure Product where
  id : Nat
  name : String
  price : Rat
  description : Option String
deriving Repr, DecidableEq

/-- Row of the `CartItem` table: integer primary key plus foreign keys to
`user.id` and `product.id`. -/
structure CartItem where
  id : Nat
  user_id : Nat
  product_id : Nat
deriving Repr, DecidableEq

/-- The committed state of the SQLite database: the three tables, in row
insertion order, plus the next auto-increment primary key of the two tables
the application inserts into. -/
structure DB where
  users : List User
  products : List Product
  cartItems : List CartItem
  nextProductId : Nat
  nextCartItemId : Nat
deriving Repr, DecidableEq

/-- Route `POST /login`: `User.query.filter_by(username=data.get("username")).first()`
followed by `if user and data.get("password") == user.password`.  The inputs
are the optional `username` and `password` fields of the request JSON
(`data.get` yields `None` when absent).  Returns the HTTP status and whether
`login_user` was called (a session was established). -/
def login (db : DB) (username password : Option String) : Nat × Bool :=
  match username.bind (fun n => db.users.find? (fun u => u.username == n)) with
  | some user => if password == user.password then (200, true) else (401, false)
  | none => (401, false)

/-- Route `POST /api/products/add`: requires both `name` and `price` keys in the
request JSON; description defaults to `""` via `data.get("description", "")`.
On success inserts one Product row and commits; otherwise returns 400 and
writes nothing. -/
def add_product (db : DB) (name : Option String) (price : Option Rat)
    (descr : Option String) : Nat × DB :=
  match name, price with
  | some n, some pr =>
      let product : Product :=
        { id := db.nextProductId, name := n, price := pr,
          description := some (descr.getD "") }
      (200, { db with products := db.products ++ [product],
                      nextProductId := db.nextProductId + 1 })
  | _, _ => (400, db)

/-- Route `DELETE /api/products/delete/<product_id>`: `Product.query.get` then, if
found, `db.session.delete(product)` and commit (deletes the row with that
primary key); otherwise 404 and no write. -/
def delete_product (db : DB) (pid : Nat) : Nat × DB :=
  match db.products.find? (fun p => p.id == pid) with
  | some product =>
      (200, { db with products := db.products.filter (fun q => !(q.id == product.id)) })
  | none => (404, db)

/-- Route `GET /api/products/<product_id>`: `Product.query.get`; `some` is the 200
response exposing id, name, price and description, `none` the 404. -/
def get_product_details (db : DB) (pid : Nat) : Option Product :=
  db.products.find? (fun p => p.id == pid)

/-- Route `PUT /api/products/update/<product_id>`: `Product.query.get`, 404 when
absent; otherwise each of `name`, `price`, `description` present in the
request JSON overwrites that column of the found row, then commit. -/
def update_product (db : DB) (pid : Nat) (name : Option String)
    (price : Option Rat) (descr : Option String) : Nat × DB :=
  match db.products.find? (fun p => p.id == pid) with
  | none => (404, db)
  | some product =>
      let product' : Product :=
        { product with
          name := name.getD product.name,
          price := price.getD product.price,
          description := match descr with
            | some d => some d
            | none => product.description }
      (200, { db with products :=
        db.products.map (fun q => if q.id == product.id then product' else q) })

/-- Route `GET /api/products`: all products projected to id, name and price
(description intentionally omitted). -/
def get_products (db : DB) : List (Nat × String × Rat) :=
  db.products.map (fun p => (p.id, p.name, p.price))

/-- Route `POST /api/cart/add/<product_id>`: resolves `current_user.id` and the
product id with `.query.get`; if both resolve, inserts one CartItem row and
commits (200), otherwise 400 and no write. -/
def add_to_cart (db : DB) (uid pid : Nat) : Nat × DB :=
  match db.users.find? (fun u => u.id == uid),
        db.products.find? (fun p => p.id == pid) with
  | some user, some product =>
      let cart_item : CartItem :=
        { id := db.nextCartItemId, user_id := user.id, product_id := product.id }
      (200, { db with cartItems := db.cartItems ++ [cart_item],
                      nextCartItemId := db.nextCartItemId + 1 })
  | _, _ => (400, db)

/-- Route `DELETE /api/cart/remove/<product_id>`:
`CartItem.query.filter_by(user_id=current_user.id, product_id=product_id).first()`;
if found, deletes that row (by primary key) and commits (200), else 400. -/
def remove_from_cart (db : DB) (uid pid : Nat) : Nat × DB :=
  match db.cartItems.find? (fun c => c.user_id == uid && c.product_id == pid) with
  | some cart_item =>
      (200, { db with cartItems := db.cartItems.filter (fun c => !(c.id == cart_item.id)) })
  | none => (400, db)

/-- One enriched entry of the `GET /api/cart` response. -/
structure CartEntry where
  id : Nat
  user_id : Nat
  product_id : Nat
  product_name : String
  product_price : Rat
deriving Repr, DecidableEq

/-- The `for cart_item in cart_itens` loop of `view_cart`: for each
CartItem, `Product.query.get(cart_item.product_id)` joins in the current
product's name and price.  `none` models the unhandled `AttributeError` the
Python loop raises on `product.name` when the lookup returned `None`. -/
def enrichCart (db : DB) : List CartItem → Option (List CartEntry)
  | [] => some []
  | cart_item :: rest =>
      match db.products.find? (fun p => p.id == cart_item.product_id) with
      | none => none
      | some product =>
          (enrichCart db rest).map fun entries =>
            { id := cart_item.id, user_id := cart_item.user_id,
              product_id := cart_item.product_id,
              product_name := product.name,
              product_price := product.price } :: entries

/-- Route `GET /api/cart`: resolves `current_user.id`, reads `user.cart` and runs
the enrichment loop over it.  `none` models the unhandled Python exception
when the user or a referenced product does not resolve. -/
def view_cart (db : DB) (uid : Nat) : Option (List CartEntry) :=
  (db.users.find? (fun u => u.id == uid)).bind fun user =>
    enrichCart db (db.cartItems.filter (fun c => c.user_id == user.id))

/-- Route `POST /api/cart/checkout`: `db.session.delete(cart_item)` for every item
of `user.cart`, then one commit.  `none` models the crash when the user id
does not resolve (`user.cart` on `None`). -/
def checkout (db : DB) (uid : Nat) : Option DB :=
  (db.users.find? (fun u => u.id == uid)).map fun user =>
    let cart_itens := db.cartItems.filter (fun c => c.user_id == user.id)
    { db with cartItems :=
        db.cartItems.filter (fun c => !((cart_itens.map (fun x => x.id)).contains c.id)) }

/-- Schema-level well-formedness that SQLite guarantees for any state
reachable through the application: primary keys are pairwise distinct and
below the auto-increment counters, and usernames are unique
(`unique=True` on the username column). -/
def DB.WF (db : DB) : Prop :=
  db.users.Pairwise (fun a b => a.id ≠ b.id ∧ a.username ≠ b.username) ∧
  db.products.Pairwise (fun a b => a.id ≠ b.id) ∧
  (∀ p ∈ db.products, p.id < db.nextProductId) ∧
  db.cartItems.Pairwise (fun a b => a.id ≠ b.id) ∧
  (∀ c ∈ db.cartItems, c.id < db.nextCartItemId)

instance (db : DB) : Decidable db.WF := by
  unfold DB.WF; infer_instance

/-!
Transaction model for the cart operations.  A SQLAlchemy session buffers
`db.session.add` and `db.session.delete` calls; nothing reaches the stored
database before `db.session.commit`.  Each cart route is linearised into the
list of session actions it performs, the final `commit` last; executing a
prefix of that list models the route failing at that point.
-/

/-- One SQLAlchemy session action performed by a cart route: buffer an
insert, buffer a delete of the row with the given primary key, or commit. -/
inductive Action where
  | insertCart (c : CartItem)
  | deleteCart (cid : Nat)
  | commit
deriving Repr, DecidableEq

/-- State of a session in flight: the committed database plus the buffered inserts
and deletes (in the order they were issued). -/
structure TxState where
  stored : DB
  pendingAdds : List CartItem
  pendingDeletes : List Nat
deriving Repr, DecidableEq

/-- Effect of one session action.  Only `commit` touches the stored
database: it deletes the buffered rows by primary key, appends the buffered
inserts and advances the auto-increment counter. -/
def applyAction (s : TxState) : Action → TxState
  | Action.insertCart c => { s with pendingAdds := s.pendingAdds ++ [c] }
  | Action.deleteCart i => { s with pendingDeletes := s.pendingDeletes ++ [i] }
  | Action.commit =>
      { stored := { s.stored with
          cartItems :=
            (s.stored.cartItems.filter (fun c => !(s.pendingDeletes.contains c.id)))
              ++ s.pendingAdds,
          nextCartItemId := s.stored.nextCartItemId + s.pendingAdds.length },
        pendingAdds := [], pendingDeletes := [] }

/-- Run a list of session actions in order. -/
def runActions (s : TxState) (as : List Action) : TxState :=
  as.foldl applyAction s

/-- Session actions of `add_to_cart`: after the two lookups succeed, one
`db.session.add(cart_item)` then `db.session.commit()`; on a failed lookup
the route returns 400 without touching the session. -/
def addToCartTrace (db : DB) (uid pid : Nat) : List Action :=
  match db.users.find? (fun u => u.id == uid),
        db.products.find? (fun p => p.id == pid) with
  | some user, some product =>
      [Action.insertCart
        { id := db.nextCartItemId, user_id := user.id, product_id := product.id },
       Action.commit]
  | _, _ => []

/-- Session actions of `remove_from_cart`: one `db.session.delete(cart_item)`
then `db.session.commit()` when the lookup succeeds, nothing otherwise. -/
def removeFromCartTrace (db : DB) (uid pid : Nat) : List Action :=
  match db.cartItems.find? (fun c => c.user_id == uid && c.product_id == pid) with
  | some cart_item => [Action.deleteCart cart_item.id, Action.commit]
  | none => []

/-- Session actions of `view_cart`: the route only reads. -/
def viewCartTrace (_db : DB) (_uid : Nat) : List Action := []

/-- Session actions of `checkout`: one `db.session.delete` per item of
`user.cart`, then a single `db.session.commit()`. -/
def checkoutTrace (db : DB) (uid : Nat) : List Action :=
  match db.users.find? (fun u => u.id == uid) with
  | some user =>
      ((db.cartItems.filter (fun c => c.user_id == user.id)).map
        (fun c => Action.deleteCart c.id)) ++ [Action.commit]
  | none => []

/-- Concrete well-formed database used to instantiate the theorems on
closed inputs. -/
def dbW : DB :=
  { users := [{ id := 1, username := "alice", password := some "secret" },
              { id := 2, username := "bob", password := some "pw" }],
    products := [{ id := 1, name := "Pen", price := 3/2, description := some "" },
                 { id := 2, name := "Ink", price := 5, description := none }],
    cartItems := [{ id := 1, user_id := 1, product_id := 1 },
                  { id := 2, user_id := 2, product_id := 1 },
                  { id := 3, user_id := 1, product_id := 2 }],
    nextProductId := 3, nextCartItemId := 4 }

/-- The per-row transformation `update_product` applies to the product
table when only the price field is supplied: the row with the matching
primary key gets the new price, every other row is untouched. -/
def setPrice (product : Product) (newPrice : Rat) (q : Product) : Product :=
  if q.id == product.id
  then { id := product.id, name := product.name, price := newPrice,
         description := product.description }
  else q

/-- Concrete database whose cart holds a reference to a product that is no
longer in the catalog, as `delete_product` leaves behind. -/
def dbDangleW : DB :=
  { users := [{ id := 1, username := "alice", password := some "secret" }],
    products := [],
    cartItems := [{ id := 1, user_id := 1, product_id := 1 }],
    nextProductId := 2, nextCartItemId := 2 }

end ECommerce

namespace ECommerce

/-! Helper lemmas. -/

theorem enrichCart_isSome (db : DB) (l : List CartItem) :
    (enrichCart db l).isSome = true ↔
      ∀ c ∈ l, (db.products.find? (fun p => p.id == c.product_id)).isSome = true := by
  induction l with
  | nil => simp [enrichCart]
  | cons a l ih =>
    cases hf : db.products.find? (fun p => p.id == a.product_id) with
    | none =>
      simp only [enrichCart, hf]
      constructor
      · intro h; cases h
      · intro h
        have ha := h a (List.mem_cons_self a l)
        rw [hf] at ha
        cases ha
    | some product =>
      simp only [enrichCart, hf, Option.isSome_map']
      rw [ih]
      constructor
      · intro h c hc
        rcases List.mem_cons.mp hc with rfl | hc
        · rw [hf]; rfl
        · exact h c hc
      · intro h c hc
        exact h c (List.mem_cons_of_mem a hc)

theorem enrichCart_forall₂ (db : DB) (l : List CartItem) (es : List CartEntry)
    (h : enrichCart db l = some es) :
    List.Forall₂ (fun c e => ∃ product,
      db.products.find? (fun p => p.id == c.product_id) = some product ∧
      e = { id := c.id, user_id := c.user_id, product_id := c.product_id,
            product_name := product.name, product_price := product.price }) l es := by
  induction l generalizing es with
  | nil =>
    simp [enrichCart] at h
    subst h
    exact List.Forall₂.nil
  | cons a l ih =>
    cases hf : db.products.find? (fun p => p.id == a.product_id) with
    | none => simp [enrichCart, hf] at h
    | some product =>
      simp only [enrichCart, hf, Option.map_eq_some'] at h
      obtain ⟨es', hes', rfl⟩ := h
      exact List.Forall₂.cons ⟨product, hf, rfl⟩ (ih es' hes')

theorem enrichCart_map_product_id (db : DB) (l : List CartItem)
    (es : List CartEntry) (h : enrichCart db l = some es) :
    es.map (fun e => e.product_id) = l.map (fun c => c.product_id) := by
  induction l generalizing es with
  | nil =>
    simp [enrichCart] at h
    subst h
    rfl
  | cons a l ih =>
    cases hf : db.products.find? (fun p => p.id == a.product_id) with
    | none => simp [enrichCart, hf] at h
    | some product =>
      simp only [enrichCart, hf, Option.map_eq_some'] at h
      obtain ⟨es', hes', rfl⟩ := h
      simp [ih es' hes']

theorem find?_map_comm {α : Type} (p : α → Bool) (f : α → α) (l : List α)
    (hf : ∀ a, p (f a) = p a) :
    (l.map f).find? p = (l.find? p).map f := by
  induction l with
  | nil => rfl
  | cons a l ih =>
    cases hp : p a with
    | true => simp [List.find?, hf, hp]
    | false => simp [List.find?, hf, hp, ih]

theorem filter_key_erase_of_pairwise {α : Type} (key : α → Nat) (l : List α)
    (c : α) (hp : l.Pairwise (fun a b => key a ≠ key b)) (hc : c ∈ l) :
    ∃ l1 l2, l = l1 ++ c :: l2 ∧
      l.filter (fun x => !(key x == key c)) = l1 ++ l2 := by
  obtain ⟨l1, l2, rfl⟩ := List.append_of_mem hc
  refine ⟨l1, l2, rfl, ?_⟩
  rw [List.pairwise_append] at hp
  rw [List.filter_append, List.filter_cons]
  have h1 : l1.filter (fun x => !(key x == key c)) = l1 :=
    List.filter_eq_self.mpr fun x hx => by
      simp [hp.2.2 x hx c (List.mem_cons_self c l2)]
  have h2 : l2.filter (fun x => !(key x == key c)) = l2 :=
    List.filter_eq_self.mpr fun x hx => by
      simp [Ne.symm ((List.pairwise_cons.mp hp.2.1).1 x hx)]
  simp [h1, h2]

theorem filter_sub_filter {α : Type} (p q : α → Bool) (l : List α)
    (h : ∀ x ∈ l, p x = true → q x = true) :
    (l.filter q).filter p = l.filter p := by
  induction l with
  | nil => rfl
  | cons a l ih =>
    have hl : ∀ x ∈ l, p x = true → q x = true :=
      fun x hx => h x (List.mem_cons_of_mem a hx)
    cases hq : q a with
    | true => simp [List.filter_cons, hq, ih hl]
    | false =>
      have hpa : p a = false := by
        cases hp : p a with
        | false => rfl
        | true => simp [h a (List.mem_cons_self a l) hp] at hq
      simp [List.filter_cons, hq, hpa, ih hl]

theorem runActions_append (s : TxState) (l1 l2 : List Action) :
    runActions s (l1 ++ l2) = runActions (runActions s l1) l2 :=
  List.foldl_append applyAction s l1 l2

theorem runActions_stored_of_no_commit (as : List Action) (s : TxState)
    (h : Action.commit ∉ as) : (runActions s as).stored = s.stored := by
  induction as generalizing s with
  | nil => rfl
  | cons a as ih =>
    have ha : a ≠ Action.commit := fun hc => h (hc ▸ List.mem_cons_self a as)
    have has : Action.commit ∉ as := fun hc => h (List.mem_cons_of_mem a hc)
    show (runActions (applyAction s a) as).stored = s.stored
    rw [ih _ has]
    cases a with
    | insertCart c => rfl
    | deleteCart i => rfl
    | commit => exact absurd rfl ha

theorem runActions_deleteCart (items : List CartItem) (s : TxState) :
    runActions s (items.map (fun c => Action.deleteCart c.id)) =
      { s with pendingDeletes := s.pendingDeletes ++ items.map (fun c => c.id) } := by
  induction items generalizing s with
  | nil => simp [runActions]
  | cons a items ih =>
    show runActions (applyAction s (Action.deleteCart a.id)) _ = _
    rw [ih]
    simp [applyAction]

end ECommerce

namespace ECommerce

theorem pairwise_key_inj {α β : Type} (key : α → β) {l : List α}
    (hp : l.Pairwise (fun a b => key a ≠ key b)) {u v : α} (hu : u ∈ l)
    (hv : v ∈ l) (h : key u = key v) : u = v := by
  induction l with
  | nil => cases hu
  | cons a l ih =>
    rw [List.pairwise_cons] at hp
    rcases List.mem_cons.mp hu with rfl | hu' <;>
      rcases List.mem_cons.mp hv with rfl | hv'
    · rfl
    · exact absurd h (hp.1 v hv')
    · exact absurd h.symm (hp.1 u hu')
    · exact ih hp.2 hu' hv'

theorem forall₂_mem_right {α β : Type} {R : α → β → Prop}
    {l : List α} {es : List β} (h : List.Forall₂ R l es) :
    ∀ e ∈ es, ∃ c ∈ l, R c e := by
  induction h with
  | nil => intro e he; cases he
  | cons hab htl ih =>
    intro e he
    rcases List.mem_cons.mp he with rfl | he'
    · exact ⟨_, List.mem_cons_self _ _, hab⟩
    · obtain ⟨c, hc, hR⟩ := ih e he'
      exact ⟨c, List.mem_cons_of_mem _ hc, hR⟩

theorem find?_key_eq {α : Type} {key : α → Nat} {l : List α} {k : Nat} {a : α}
    (h : l.find? (fun x => key x == k) = some a) : key a = k := by
  simpa using List.find?_some h

theorem view_cart_count (db : DB) (uid pid : Nat) (user : User)
    (hu : db.users.find? (fun u => u.id == uid) = some user)
    (hall : ∀ c ∈ db.cartItems.filter (fun c => c.user_id == user.id),
      (db.products.find? (fun p => p.id == c.product_id)).isSome = true) :
    ∃ es, view_cart db uid = some es ∧
      es.countP (fun e => e.product_id == pid) =
        (db.cartItems.filter (fun c => c.user_id == user.id)).countP
          (fun c => c.product_id == pid) := by
  obtain ⟨es, hes⟩ := Option.isSome_iff_exists.mp
    ((enrichCart_isSome db _).mpr hall)
  refine ⟨es, ?_, ?_⟩
  · simp [view_cart, hu, hes]
  · have hmap := enrichCart_map_product_id db _ es hes
    have h1 : es.countP (fun e => e.product_id == pid) =
        (es.map (fun e => e.product_id)).countP (fun x => x == pid) := by
      rw [List.countP_map]
      rfl
    have h2 : ((db.cartItems.filter (fun c => c.user_id == user.id)).map
          (fun c => c.product_id)).countP (fun x => x == pid) =
        (db.cartItems.filter (fun c => c.user_id == user.id)).countP
          (fun c => c.product_id == pid) := by
      rw [List.countP_map]
      rfl
    rw [h1, hmap, h2]

theorem add_to_cart_success (db : DB) (uid pid : Nat) (user : User)
    (product : Product)
    (hu : db.users.find? (fun u => u.id == uid) = some user)
    (hp : db.products.find? (fun p => p.id == pid) = some product) :
    add_to_cart db uid pid =
      (200,
        { db with
          cartItems := db.cartItems ++ [{ id := db.nextCartItemId, user_id := user.id, product_id := product.id : CartItem }],
          nextCartItemId := db.nextCartItemId + 1 }) := by
  simp [add_to_cart, hu, hp]

end ECommerce

namespace ECommerce

/-- C6: the authentication check succeeds, establishing a session, exactly
when a User with the supplied username exists and its stored credential is
exactly (case-sensitively) equal to the supplied credential; on any other
input it returns 401 and establishes no session. -/
theorem login_correct (db : DB) (username password : Option String)
    (hwf : db.WF) :
    (login db username password = (200, true) ↔
      ∃ n, username = some n ∧
        ∃ u ∈ db.users, u.username = n ∧ u.password = password) ∧
    (login db username password = (200, true) ∨
      login db username password = (401, false)) := by
  cases username with
  | none =>
    refine ⟨⟨fun h => ?_, fun h => ?_⟩, Or.inr rfl⟩
    · simp [login] at h
    · obtain ⟨n, hn, -⟩ := h
      cases hn
  | some n =>
    cases hfind : db.users.find? (fun u => u.username == n) with
    | none =>
      have hno : ∀ u ∈ db.users, u.username ≠ n := by
        intro u hu
        have := List.find?_eq_none.mp hfind u hu
        simpa using this
      refine ⟨⟨fun h => ?_, fun h => ?_⟩, Or.inr (by simp [login, hfind])⟩
      · simp [login, hfind] at h
      · obtain ⟨m, hm, u, hu, hun, -⟩ := h
        injection hm with hm
        exact absurd (hm ▸ hun) (hno u hu)
    | some user =>
      have huname : user.username = n := by
        simpa using List.find?_some hfind
      have humem := List.mem_of_find?_eq_some hfind
      by_cases hpw : password = user.password
      · refine ⟨⟨fun _ => ?_, fun _ => by simp [login, hfind, hpw]⟩,
          Or.inl (by simp [login, hfind, hpw])⟩
        exact ⟨n, rfl, user, humem, huname, hpw.symm⟩
      · refine ⟨⟨fun h => ?_, fun h => ?_⟩,
          Or.inr (by simp [login, hfind, hpw])⟩
        · simp [login, hfind, hpw] at h
        · obtain ⟨m, hm, u, hu, hun, hupw⟩ := h
          injection hm with hm
          subst hm
          have huu : u = user :=
            pairwise_key_inj (fun v => v.username)
              (hwf.1.imp (fun hab => hab.2)) hu humem
              (by show u.username = user.username; rw [hun, huname])
          subst huu
          exact absurd hupw.symm hpw

/-- Witness for C6 at a concrete database and credentials. -/
theorem login_correct_witness :
    login dbW (some "alice") (some "secret") = (200, true) :=
  (login_correct dbW (some "alice") (some "secret") (by decide)).1.mpr
    ⟨"alice", rfl, { id := 1, username := "alice", password := some "secret" },
      by simp [dbW], rfl, rfl⟩

/-- C7: with both name and price supplied, `add_product` creates a product
whose subsequent `get_product` lookup returns exactly that name and price
and the supplied-or-empty description; with either field missing it returns
400 and creates nothing. -/
theorem add_product_correct (db : DB) (name : Option String)
    (price : Option Rat) (descr : Option String) (hwf : db.WF) :
    (name = none ∨ price = none →
      add_product db name price descr = (400, db)) ∧
    (∀ n pr, name = some n → price = some pr →
      (add_product db name price descr).1 = 200 ∧
      get_product_details (add_product db name price descr).2 db.nextProductId =
        some { id := db.nextProductId, name := n, price := pr,
               description := some (descr.getD "") }) := by
  constructor
  · rintro (rfl | rfl)
    · rfl
    · cases name <;> rfl
  · rintro n pr rfl rfl
    refine ⟨rfl, ?_⟩
    simp only [add_product, get_product_details]
    rw [List.find?_append]
    have h1 : db.products.find? (fun p => p.id == db.nextProductId) = none :=
      List.find?_eq_none.mpr fun p hp => by
        simp [Nat.ne_of_lt (hwf.2.2.1 p hp)]
    rw [h1]
    simp [List.find?]

/-- Witness for C7 at a concrete database and fields. -/
theorem add_product_correct_witness :
    (add_product dbW (some "Mug") (some 7) none).1 = 200 ∧
    get_product_details (add_product dbW (some "Mug") (some 7) none).2
        dbW.nextProductId =
      some { id := dbW.nextProductId, name := "Mug", price := 7,
             description := some "" } :=
  (add_product_correct dbW (some "Mug") (some 7) none (by decide)).2 "Mug" 7 rfl rfl

/-- C8: `delete_product` on an unresolvable id returns 404 and leaves all
three tables unchanged; on a resolvable id it removes exactly that product
row, unconditionally, touching neither the User nor the CartItem table. -/
theorem delete_product_correct (db : DB) (pid : Nat) (hwf : db.WF) :
    (db.products.find? (fun p => p.id == pid) = none →
      delete_product db pid = (404, db)) ∧
    (∀ product, db.products.find? (fun p => p.id == pid) = some product →
      ∃ l1 l2, db.products = l1 ++ product :: l2 ∧
        delete_product db pid = (200, { db with products := l1 ++ l2 }) ∧
        (delete_product db pid).2.users = db.users ∧
        (delete_product db pid).2.cartItems = db.cartItems) := by
  constructor
  · intro h
    simp [delete_product, h]
  · intro product hfind
    obtain ⟨l1, l2, hsplit, hfilter⟩ :=
      filter_key_erase_of_pairwise (fun p => p.id) db.products product
        hwf.2.1 (List.mem_of_find?_eq_some hfind)
    refine ⟨l1, l2, hsplit, ?_, ?_, ?_⟩
    · simp [delete_product, hfind, hfilter]
    · simp [delete_product, hfind]
    · simp [delete_product, hfind]

/-- Witness for C8 at a concrete database and product id. -/
theorem delete_product_correct_witness :
    ∃ l1 l2,
      dbW.products =
        l1 ++ ({ id := 1, name := "Pen", price := 3/2, description := some "" } : Product) :: l2 ∧
      delete_product dbW 1 = (200, { dbW with products := l1 ++ l2 }) ∧
      (delete_product dbW 1).2.users = dbW.users ∧
      (delete_product dbW 1).2.cartItems = dbW.cartItems :=
  (delete_product_correct dbW 1 (by decide)).2
    { id := 1, name := "Pen", price := 3/2, description := some "" } rfl

end ECommerce

namespace ECommerce

/-- C4: `remove_from_cart` deletes exactly one CartItem matching both the
calling user and the product whenever at least one such CartItem exists
(one row per call, even with duplicates); with no match it returns 400
without crashing and without changing the stored state. -/
theorem remove_from_cart_correct (db : DB) (uid pid : Nat) (hwf : db.WF) :
    ((∀ c ∈ db.cartItems, ¬(c.user_id = uid ∧ c.product_id = pid)) →
      remove_from_cart db uid pid = (400, db)) ∧
    ((∃ c ∈ db.cartItems, c.user_id = uid ∧ c.product_id = pid) →
      ∃ cart_item l1 l2,
        CartItem.user_id cart_item = uid ∧
        CartItem.product_id cart_item = pid ∧
        db.cartItems = l1 ++ cart_item :: l2 ∧
        remove_from_cart db uid pid = (200, { db with cartItems := l1 ++ l2 })) := by
  constructor
  · intro h
    have hfind : db.cartItems.find?
        (fun c => c.user_id == uid && c.product_id == pid) = none :=
      List.find?_eq_none.mpr fun c hc => by
        have hnc := h c hc
        simp only [Bool.and_eq_true, beq_iff_eq]
        tauto
    simp [remove_from_cart, hfind]
  · intro h
    have hsome : (db.cartItems.find?
        (fun c => c.user_id == uid && c.product_id == pid)).isSome := by
      rw [List.find?_isSome]
      obtain ⟨c, hc, h1, h2⟩ := h
      exact ⟨c, hc, by simp [h1, h2]⟩
    obtain ⟨cart_item, hfind⟩ := Option.isSome_iff_exists.mp hsome
    have hui : cart_item.user_id = uid ∧ cart_item.product_id = pid := by
      have := List.find?_some hfind
      simpa using this
    obtain ⟨l1, l2, hsplit, hfilter⟩ :=
      filter_key_erase_of_pairwise (fun c => c.id) db.cartItems cart_item
        hwf.2.2.2.1 (List.mem_of_find?_eq_some hfind)
    exact ⟨cart_item, l1, l2, hui.1, hui.2, hsplit,
      by simp [remove_from_cart, hfind, hfilter]⟩

/-- Witness for C4 at a concrete database, user and product. -/
theorem remove_from_cart_correct_witness :
    ∃ cart_item l1 l2,
      CartItem.user_id cart_item = 1 ∧
      CartItem.product_id cart_item = 1 ∧
      dbW.cartItems = l1 ++ cart_item :: l2 ∧
      remove_from_cart dbW 1 1 = (200, { dbW with cartItems := l1 ++ l2 }) :=
  (remove_from_cart_correct dbW 1 1 (by decide)).2
    ⟨{ id := 1, user_id := 1, product_id := 1 }, by simp [dbW], rfl, rfl⟩

/-- Any `view_cart` call whose user resolves and whose cart filter is empty
returns the empty sequence. -/
theorem view_cart_empty_of (db2 : DB) (uid : Nat) (user : User)
    (hu : db2.users.find? (fun u => u.id == uid) = some user)
    (he : db2.cartItems.filter (fun c => c.user_id == user.id) = []) :
    view_cart db2 uid = some [] := by
  unfold view_cart
  rw [hu]
  show enrichCart db2 (db2.cartItems.filter (fun c => c.user_id == user.id)) = some []
  rw [he]
  rfl

/-- C2: for every user and any cart contents, `checkout` deletes every
CartItem owned by the user, and an immediate `view_cart` returns the empty
sequence. -/
theorem checkout_then_view_cart_empty (db : DB) (uid : Nat) (user : User)
    (hu : db.users.find? (fun u => u.id == uid) = some user) :
    ∃ db', checkout db uid = some db' ∧
      db'.cartItems.filter (fun c => c.user_id == uid) = [] ∧
      view_cart db' uid = some [] := by
  have huid : user.id = uid := by simpa using List.find?_some hu
  subst huid
  have hco : checkout db user.id = some
      { db with
        cartItems := db.cartItems.filter
          (fun c => !(((db.cartItems.filter (fun x => x.user_id == user.id)).map (fun x => x.id)).contains c.id)) } := by
    simp [checkout, hu]
  have hempty : (db.cartItems.filter
      (fun c => !(((db.cartItems.filter (fun x => x.user_id == user.id)).map (fun x => x.id)).contains c.id))).filter
      (fun c => c.user_id == user.id) = [] := by
    rw [List.filter_eq_nil_iff]
    intro c hc
    rw [List.mem_filter] at hc
    intro hcu
    have hmemitems : c ∈ db.cartItems.filter (fun x => x.user_id == user.id) :=
      List.mem_filter.mpr ⟨hc.1, hcu⟩
    have hidmem : c.id ∈ (db.cartItems.filter
        (fun x => x.user_id == user.id)).map (fun x => x.id) :=
      List.mem_map.mpr ⟨c, hmemitems, rfl⟩
    have hcontains : ((db.cartItems.filter
        (fun x => x.user_id == user.id)).map (fun x => x.id)).contains c.id = true := by
      simpa using hidmem
    have hc2 := hc.2
    rw [hcontains] at hc2
    simp at hc2
  exact ⟨_, hco, hempty, view_cart_empty_of _ user.id user hu hempty⟩

/-- Witness for C2 at a concrete database and user. -/
theorem checkout_then_view_cart_empty_witness :
    ∃ db', checkout dbW 1 = some db' ∧
      db'.cartItems.filter (fun c => c.user_id == 1) = [] ∧
      view_cart db' 1 = some [] :=
  checkout_then_view_cart_empty dbW 1
    { id := 1, username := "alice", password := some "secret" } rfl

/-- C9: `view_cart` is total exactly under the precondition that every
CartItem of the calling user references an existing Product; with any
dangling product reference (as `delete_product` can leave behind) it
crashes, modelled as `none`, instead of returning a sequence. -/
theorem view_cart_total_iff (db : DB) (uid : Nat) (user : User)
    (hu : db.users.find? (fun u => u.id == uid) = some user) :
    (view_cart db uid).isSome = true ↔
      ∀ c ∈ db.cartItems.filter (fun c => c.user_id == uid),
        (db.products.find? (fun p => p.id == c.product_id)).isSome = true := by
  have huid : user.id = uid := by simpa using List.find?_some hu
  subst huid
  have hview : view_cart db user.id =
      enrichCart db (db.cartItems.filter (fun c => c.user_id == user.id)) := by
    simp [view_cart, hu]
  rw [hview]
  exact enrichCart_isSome db _

/-- Witness for C9: a database whose cart references a deleted product. -/
theorem view_cart_total_iff_witness :
    (view_cart dbDangleW 1).isSome = true ↔
      ∀ c ∈ dbDangleW.cartItems.filter (fun c => c.user_id == 1),
        (dbDangleW.products.find? (fun p => p.id == c.product_id)).isSome = true :=
  view_cart_total_iff dbDangleW 1
    { id := 1, username := "alice", password := some "secret" } rfl

end ECommerce

namespace ECommerce

/-- C5: `view_cart` returns one enriched entry per CartItem of the user,
each built from the catalog's product row as it stands at read time; in
particular a price change through `update_product` is reflected by a
subsequent `view_cart` of a cart filled before the change. -/
theorem view_cart_live_price (db : DB) (uid pid : Nat) (newPrice : Rat)
    (user : User) (product : Product)
    (hu : db.users.find? (fun u => u.id == uid) = some user)
    (hp : db.products.find? (fun p => p.id == pid) = some product)
    (hall : ∀ c ∈ db.cartItems.filter (fun c => c.user_id == uid),
      (db.products.find? (fun p => p.id == c.product_id)).isSome = true) :
    (update_product db pid none (some newPrice) none).1 = 200 ∧
    ∃ es,
      view_cart (update_product db pid none (some newPrice) none).2 uid = some es ∧
      List.Forall₂ (fun c e => ∃ q,
        (update_product db pid none (some newPrice) none).2.products.find?
          (fun p => p.id == c.product_id) = some q ∧
        e = { id := c.id, user_id := c.user_id, product_id := c.product_id,
              product_name := q.name, product_price := q.price })
        (db.cartItems.filter (fun c => c.user_id == uid)) es ∧
      ∀ e ∈ es, e.product_id = pid → e.product_price = newPrice := by
  have huid : user.id = uid := by simpa using List.find?_some hu
  subst huid
  have hpid : product.id = pid := by simpa using List.find?_some hp
  subst hpid
  have hup : update_product db product.id none (some newPrice) none =
      (200, { db with products := db.products.map (setPrice product newPrice) }) := by
    simp [update_product, hp, setPrice]
  rw [hup]
  refine ⟨rfl, ?_⟩
  have hpred : ∀ k : Nat, ∀ q : Product,
      ((setPrice product newPrice q).id == k) = (q.id == k) := by
    intro k q
    by_cases h : (q.id == product.id) = true
    · have hq : q.id = product.id := by simpa using h
      simp [setPrice, h, hq]
    · simp [setPrice, h]
  have hfmap : ∀ k : Nat,
      (db.products.map (setPrice product newPrice)).find? (fun p => p.id == k) =
      (db.products.find? (fun p => p.id == k)).map (setPrice product newPrice) :=
    fun k => find?_map_comm _ _ _ (hpred k)
  have hall2 : ∀ c ∈ db.cartItems.filter (fun c => c.user_id == user.id),
      (({ db with products := db.products.map (setPrice product newPrice) } : DB).products.find?
        (fun p => p.id == c.product_id)).isSome = true := by
    intro c hc
    show ((db.products.map (setPrice product newPrice)).find?
      (fun p => p.id == c.product_id)).isSome = true
    rw [hfmap, Option.isSome_map']
    exact hall c hc
  obtain ⟨es, hes⟩ := Option.isSome_iff_exists.mp
    ((enrichCart_isSome
      { db with products := db.products.map (setPrice product newPrice) }
      (db.cartItems.filter (fun c => c.user_id == user.id))).mpr hall2)
  refine ⟨es, ?_, ?_, ?_⟩
  · unfold view_cart
    rw [hu]
    exact hes
  · exact enrichCart_forall₂ _ _ es hes
  · intro e he hepid
    obtain ⟨c, hc, q, hq, rfl⟩ :=
      forall₂_mem_right (enrichCart_forall₂ _ _ es hes) e he
    have hcpid : c.product_id = product.id := hepid
    have hq2 : ((db.products.map (setPrice product newPrice)).find?
        (fun p => p.id == c.product_id)) = some q := hq
    rw [hcpid, hfmap, hp] at hq2
    have hqval : setPrice product newPrice product = q := by
      injection hq2
    have : setPrice product newPrice product =
        { id := product.id, name := product.name, price := newPrice,
          description := product.description } := by
      simp [setPrice]
    rw [this] at hqval
    rw [← hqval]

/-- Witness for C5 at a concrete database, product and new price. -/
theorem view_cart_live_price_witness :
    (update_product dbW 1 none (some 2) none).1 = 200 ∧
    ∃ es,
      view_cart (update_product dbW 1 none (some 2) none).2 1 = some es ∧
      List.Forall₂ (fun c e => ∃ q,
        (update_product dbW 1 none (some 2) none).2.products.find?
          (fun p => p.id == c.product_id) = some q ∧
        e = { id := c.id, user_id := c.user_id, product_id := c.product_id,
              product_name := q.name, product_price := q.price })
        (dbW.cartItems.filter (fun c => c.user_id == 1)) es ∧
      ∀ e ∈ es, e.product_id = 1 → e.product_price = 2 :=
  view_cart_live_price dbW 1 1 2
    { id := 1, username := "alice", password := some "secret" }
    { id := 1, name := "Pen", price := 3/2, description := some "" }
    rfl rfl (by decide)

end ECommerce

namespace ECommerce

/-- One successful `add_to_cart` keeps users and products, preserves
resolvability of the user's cart, and raises the user's count of items
referencing the product by exactly one. -/
theorem add_step (db : DB) (user : User) (product : Product)
    (hu : db.users.find? (fun u => u.id == user.id) = some user)
    (hp : db.products.find? (fun p => p.id == product.id) = some product)
    (hall : ∀ c ∈ db.cartItems.filter (fun c => c.user_id == user.id),
      (db.products.find? (fun p => p.id == c.product_id)).isSome = true) :
    (add_to_cart db user.id product.id).2.users = db.users ∧
    (add_to_cart db user.id product.id).2.products = db.products ∧
    (∀ c ∈ (add_to_cart db user.id product.id).2.cartItems.filter
        (fun c => c.user_id == user.id),
      ((add_to_cart db user.id product.id).2.products.find?
        (fun p => p.id == c.product_id)).isSome = true) ∧
    ((add_to_cart db user.id product.id).2.cartItems.filter
        (fun c => c.user_id == user.id)).countP (fun c => c.product_id == product.id) =
      (db.cartItems.filter (fun c => c.user_id == user.id)).countP
        (fun c => c.product_id == product.id) + 1 := by
  rw [add_to_cart_success db user.id product.id user product hu hp]
  refine ⟨rfl, rfl, ?_, ?_⟩
  · show ∀ c ∈ (db.cartItems ++ [{ id := db.nextCartItemId, user_id := user.id, product_id := product.id : CartItem }]).filter (fun c => c.user_id == user.id),
      (db.products.find? (fun p => p.id == c.product_id)).isSome = true
    intro c hc
    rw [List.filter_append] at hc
    rcases List.mem_append.mp hc with hold | hnew
    · exact hall c hold
    · have hceq : c = { id := db.nextCartItemId, user_id := user.id, product_id := product.id : CartItem } := by
        rcases List.mem_filter.mp hnew with ⟨hmem, -⟩
        simpa using hmem
      rw [hceq]
      simp [hp]
  · show ((db.cartItems ++ [{ id := db.nextCartItemId, user_id := user.id, product_id := product.id : CartItem }]).filter (fun c => c.user_id == user.id)).countP (fun c => c.product_id == product.id) =
      (db.cartItems.filter (fun c => c.user_id == user.id)).countP
        (fun c => c.product_id == product.id) + 1
    rw [List.filter_append, List.countP_append]
    have hone : (([{ id := db.nextCartItemId, user_id := user.id, product_id := product.id : CartItem }]).filter (fun c => c.user_id == user.id)).countP (fun c => c.product_id == product.id) = 1 := by
      simp
    rw [hone]

/-- C3: when either lookup fails, `add_to_cart` returns 400 and writes
nothing; when both resolve it inserts exactly one new CartItem, so from a
cart holding no entry for the product, one add makes `view_cart` show
exactly one entry referencing it and a second add makes it show two. -/
theorem add_to_cart_correct (db : DB) (uid pid : Nat) :
    ((db.users.find? (fun u => u.id == uid) = none ∨
      db.products.find? (fun p => p.id == pid) = none) →
      add_to_cart db uid pid = (400, db)) ∧
    (∀ user product,
      db.users.find? (fun u => u.id == uid) = some user →
      db.products.find? (fun p => p.id == pid) = some product →
      add_to_cart db uid pid = (200,
        { db with
          cartItems := db.cartItems ++ [{ id := db.nextCartItemId, user_id := user.id, product_id := product.id : CartItem }],
          nextCartItemId := db.nextCartItemId + 1 }) ∧
      ((∀ c ∈ db.cartItems.filter (fun c => c.user_id == uid),
          (db.products.find? (fun p => p.id == c.product_id)).isSome = true) →
        (db.cartItems.filter (fun c => c.user_id == uid)).countP
            (fun c => c.product_id == pid) = 0 →
        (∃ es, view_cart (add_to_cart db uid pid).2 uid = some es ∧
          es.countP (fun e => e.product_id == pid) = 1) ∧
        (∃ es, view_cart (add_to_cart (add_to_cart db uid pid).2 uid pid).2 uid = some es ∧
          es.countP (fun e => e.product_id == pid) = 2))) := by
  constructor
  · rintro (h | h)
    · cases hfp : db.products.find? (fun p => p.id == pid) <;>
        simp [add_to_cart, h, hfp]
    · cases hfu : db.users.find? (fun u => u.id == uid) <;>
        simp [add_to_cart, h, hfu]
  · intro user product hu hp
    have huid : user.id = uid := by simpa using List.find?_some hu
    subst huid
    have hpid : product.id = pid := by simpa using List.find?_some hp
    subst hpid
    refine ⟨add_to_cart_success db user.id product.id user product hu hp, ?_⟩
    intro hall hcount
    obtain ⟨hu1users, hp1products, hall1, hcount1⟩ := add_step db user product hu hp hall
    have hu1 : (add_to_cart db user.id product.id).2.users.find?
        (fun u => u.id == user.id) = some user := by
      rw [hu1users]; exact hu
    have hp1 : (add_to_cart db user.id product.id).2.products.find?
        (fun p => p.id == product.id) = some product := by
      rw [hp1products]; exact hp
    obtain ⟨es1, hes1, hcnt1⟩ :=
      view_cart_count (add_to_cart db user.id product.id).2 user.id product.id
        user hu1 hall1
    obtain ⟨hu2users, hp2products, hall2, hcount2⟩ :=
      add_step (add_to_cart db user.id product.id).2 user product hu1 hp1 hall1
    have hu2 : (add_to_cart (add_to_cart db user.id product.id).2 user.id product.id).2.users.find?
        (fun u => u.id == user.id) = some user := by
      rw [hu2users]; exact hu1
    obtain ⟨es2, hes2, hcnt2⟩ :=
      view_cart_count (add_to_cart (add_to_cart db user.id product.id).2 user.id product.id).2
        user.id product.id user hu2 hall2
    refine ⟨⟨es1, hes1, ?_⟩, ⟨es2, hes2, ?_⟩⟩
    · rw [hcnt1, hcount1, hcount]
    · rw [hcnt2, hcount2, hcount1, hcount]

/-- Witness for C3 at a concrete database, user and product. -/
theorem add_to_cart_correct_witness :
    (∃ es, view_cart (add_to_cart dbW 2 2).2 2 = some es ∧
      es.countP (fun e => e.product_id == 2) = 1) ∧
    (∃ es, view_cart (add_to_cart (add_to_cart dbW 2 2).2 2 2).2 2 = some es ∧
      es.countP (fun e => e.product_id == 2) = 2) :=
  ((add_to_cart_correct dbW 2 2).2
    { id := 2, username := "bob", password := some "pw" }
    { id := 2, name := "Ink", price := 5, description := none }
    rfl rfl).2 (by decide) (by decide)

end ECommerce

namespace ECommerce

/-- C10: every cart operation touches only the calling user's cart: for
distinct users U and V, `add_to_cart`, `remove_from_cart` and `checkout`
invoked by U leave V's CartItems, the Product table and the User table
unchanged. -/
theorem cart_ops_frame (db : DB) (uidU uidV pid : Nat) (hwf : db.WF)
    (hne : uidU ≠ uidV) :
    ((add_to_cart db uidU pid).2.users = db.users ∧
     (add_to_cart db uidU pid).2.products = db.products ∧
     (add_to_cart db uidU pid).2.cartItems.filter (fun c => c.user_id == uidV) =
       db.cartItems.filter (fun c => c.user_id == uidV)) ∧
    ((remove_from_cart db uidU pid).2.users = db.users ∧
     (remove_from_cart db uidU pid).2.products = db.products ∧
     (remove_from_cart db uidU pid).2.cartItems.filter (fun c => c.user_id == uidV) =
       db.cartItems.filter (fun c => c.user_id == uidV)) ∧
    (∀ db', checkout db uidU = some db' →
      db'.users = db.users ∧ db'.products = db.products ∧
      db'.cartItems.filter (fun c => c.user_id == uidV) =
        db.cartItems.filter (fun c => c.user_id == uidV)) := by
  refine ⟨?_, ?_, ?_⟩
  · cases hfu : db.users.find? (fun u => u.id == uidU) with
    | none =>
      cases hfp : db.products.find? (fun p => p.id == pid) <;>
        simp [add_to_cart, hfu, hfp]
    | some user =>
      cases hfp : db.products.find? (fun p => p.id == pid) with
      | none => simp [add_to_cart, hfu, hfp]
      | some product =>
        rw [add_to_cart_success db uidU pid user product hfu hfp]
        refine ⟨rfl, rfl, ?_⟩
        show (db.cartItems ++ [{ id := db.nextCartItemId, user_id := user.id, product_id := product.id : CartItem }]).filter (fun c => c.user_id == uidV) =
          db.cartItems.filter (fun c => c.user_id == uidV)
        rw [List.filter_append]
        have huid : user.id = uidU := by simpa using List.find?_some hfu
        have hnew : ([{ id := db.nextCartItemId, user_id := user.id, product_id := product.id : CartItem }]).filter (fun c => c.user_id == uidV) = [] := by
          simp [huid, hne]
        rw [hnew, List.append_nil]
  · cases hf : db.cartItems.find? (fun c => c.user_id == uidU && c.product_id == pid) with
    | none => simp [remove_from_cart, hf]
    | some cart_item =>
      have hcu : cart_item.user_id = uidU := by
        have := List.find?_some hf
        simp only [Bool.and_eq_true, beq_iff_eq] at this
        exact this.1
      have hcmem := List.mem_of_find?_eq_some hf
      refine ⟨by simp [remove_from_cart, hf], by simp [remove_from_cart, hf], ?_⟩
      have hrm : (remove_from_cart db uidU pid).2.cartItems =
          db.cartItems.filter (fun c => !(c.id == cart_item.id)) := by
        simp [remove_from_cart, hf]
      rw [hrm]
      apply filter_sub_filter
      intro x hx hpx
      by_contra hq
      have hxid : x.id = cart_item.id := by
        cases hxe : (x.id == cart_item.id) with
        | false => rw [hxe] at hq; simp at hq
        | true => simpa using hxe
      have hxc : x = cart_item :=
        pairwise_key_inj (fun c => c.id) hwf.2.2.2.1 hx hcmem hxid
      have hxv : x.user_id = uidV := by simpa using hpx
      rw [hxc, hcu] at hxv
      exact hne hxv
  · intro db' hco
    cases hfu : db.users.find? (fun u => u.id == uidU) with
    | none => rw [checkout, hfu] at hco; cases hco
    | some user =>
      have huid : user.id = uidU := by simpa using List.find?_some hfu
      have hco2 : ({ db with cartItems := db.cartItems.filter (fun c => !(((db.cartItems.filter (fun c => c.user_id == user.id)).map (fun x => x.id)).contains c.id)) } : DB) = db' := by
        rw [checkout, hfu] at hco
        exact Option.some.inj hco
      rw [← hco2]
      refine ⟨rfl, rfl, ?_⟩
      show (db.cartItems.filter
          (fun c => !(((db.cartItems.filter (fun c => c.user_id == user.id)).map (fun x => x.id)).contains c.id))).filter (fun c => c.user_id == uidV) =
        db.cartItems.filter (fun c => c.user_id == uidV)
      apply filter_sub_filter
      intro x hx hpx
      by_contra hq
      have hxin : x.id ∈ (db.cartItems.filter (fun c => c.user_id == user.id)).map (fun x => x.id) := by
        cases hxe : ((db.cartItems.filter (fun c => c.user_id == user.id)).map (fun x => x.id)).contains x.id with
        | false => rw [hxe] at hq; simp at hq
        | true => simpa using hxe
      obtain ⟨y, hy, hyid⟩ := List.mem_map.mp hxin
      have hymem : y ∈ db.cartItems := (List.mem_filter.mp hy).1
      have hyU : y.user_id = user.id := by
        have := (List.mem_filter.mp hy).2
        simpa using this
      have hyx : y = x :=
        pairwise_key_inj (fun c => c.id) hwf.2.2.2.1 hymem hx hyid
      have hxv : x.user_id = uidV := by simpa using hpx
      rw [hyx, hxv] at hyU
      rw [huid] at hyU
      exact hne hyU.symm

/-- Witness for C10 at a concrete database and pair of users. -/
theorem cart_ops_frame_witness :
    ((add_to_cart dbW 1 2).2.users = dbW.users ∧
     (add_to_cart dbW 1 2).2.products = dbW.products ∧
     (add_to_cart dbW 1 2).2.cartItems.filter (fun c => c.user_id == 2) =
       dbW.cartItems.filter (fun c => c.user_id == 2)) ∧
    ((remove_from_cart dbW 1 2).2.users = dbW.users ∧
     (remove_from_cart dbW 1 2).2.products = dbW.products ∧
     (remove_from_cart dbW 1 2).2.cartItems.filter (fun c => c.user_id == 2) =
       dbW.cartItems.filter (fun c => c.user_id == 2)) ∧
    (∀ db', checkout dbW 1 = some db' →
      db'.users = dbW.users ∧ db'.products = dbW.products ∧
      db'.cartItems.filter (fun c => c.user_id == 2) =
        dbW.cartItems.filter (fun c => c.user_id == 2)) :=
  cart_ops_frame dbW 1 2 2 (by decide) (by decide)

end ECommerce

namespace ECommerce

/-- Filtering by a delete-buffer that is empty keeps every row. -/
theorem filter_contains_nil (l : List CartItem) :
    l.filter (fun c => !(([] : List Nat).contains c.id)) = l := by
  induction l with
  | nil => rfl
  | cons a l ih => simp [List.filter_cons, ih]

/-- Filtering by a one-element delete-buffer deletes exactly the rows with
that primary key. -/
theorem filter_contains_singleton (l : List CartItem) (i : Nat) :
    l.filter (fun c => !(([i] : List Nat).contains c.id)) =
      l.filter (fun c => !(c.id == i)) := by
  apply List.filter_congr
  intro x _
  cases h : x.id == i with
  | true =>
    have hx : x.id = i := by simpa using h
    simp [hx]
  | false =>
    have hx : ¬ x.id = i := by simpa using h
    simp [hx, h]

/-- C1: each of the four cart operations is all-or-nothing: running any
commit-free prefix of its session trace (the operation failing at that
point) leaves the stored database unchanged, while the full trace commits
exactly the state the operation returns. -/
theorem cart_ops_atomic (db : DB) (uid pid : Nat) :
    (∀ pre rest, addToCartTrace db uid pid = pre ++ rest →
      Action.commit ∉ pre → (runActions ⟨db, [], []⟩ pre).stored = db) ∧
    (∀ pre rest, removeFromCartTrace db uid pid = pre ++ rest →
      Action.commit ∉ pre → (runActions ⟨db, [], []⟩ pre).stored = db) ∧
    (∀ pre rest, viewCartTrace db uid = pre ++ rest →
      Action.commit ∉ pre → (runActions ⟨db, [], []⟩ pre).stored = db) ∧
    (∀ pre rest, checkoutTrace db uid = pre ++ rest →
      Action.commit ∉ pre → (runActions ⟨db, [], []⟩ pre).stored = db) ∧
    (runActions ⟨db, [], []⟩ (addToCartTrace db uid pid)).stored =
      (add_to_cart db uid pid).2 ∧
    (runActions ⟨db, [], []⟩ (removeFromCartTrace db uid pid)).stored =
      (remove_from_cart db uid pid).2 ∧
    (runActions ⟨db, [], []⟩ (viewCartTrace db uid)).stored = db ∧
    (∀ db', checkout db uid = some db' →
      (runActions ⟨db, [], []⟩ (checkoutTrace db uid)).stored = db') := by
  refine ⟨fun pre _ _ h => runActions_stored_of_no_commit pre _ h,
    fun pre _ _ h => runActions_stored_of_no_commit pre _ h,
    fun pre _ _ h => runActions_stored_of_no_commit pre _ h,
    fun pre _ _ h => runActions_stored_of_no_commit pre _ h,
    ?_, ?_, rfl, ?_⟩
  · cases hfu : db.users.find? (fun u => u.id == uid) with
    | none =>
      cases hfp : db.products.find? (fun p => p.id == pid) <;>
        simp [addToCartTrace, add_to_cart, hfu, hfp, runActions]
    | some user =>
      cases hfp : db.products.find? (fun p => p.id == pid) with
      | none => simp [addToCartTrace, add_to_cart, hfu, hfp, runActions]
      | some product =>
        rw [add_to_cart_success db uid pid user product hfu hfp]
        simp only [addToCartTrace, hfu, hfp, runActions, List.foldl_cons,
          List.foldl_nil, applyAction]
        simp [filter_contains_nil]
  · cases hf : db.cartItems.find?
        (fun c => c.user_id == uid && c.product_id == pid) with
    | none => simp [removeFromCartTrace, remove_from_cart, hf, runActions]
    | some cart_item =>
      simp only [removeFromCartTrace, remove_from_cart, hf, runActions,
        List.foldl_cons, List.foldl_nil, applyAction]
      simp only [List.nil_append, List.append_nil, List.length_nil, Nat.add_zero]
      rw [filter_contains_singleton]
  · intro db' hco
    cases hfu : db.users.find? (fun u => u.id == uid) with
    | none => rw [checkout, hfu] at hco; cases hco
    | some user =>
      have hco2 : ({ db with cartItems := db.cartItems.filter (fun c => !(((db.cartItems.filter (fun c => c.user_id == user.id)).map (fun x => x.id)).contains c.id)) } : DB) = db' := by
        rw [checkout, hfu] at hco
        exact Option.some.inj hco
      rw [← hco2]
      simp only [checkoutTrace, hfu]
      rw [runActions_append, runActions_deleteCart]
      simp only [runActions, List.foldl_cons, List.foldl_nil, applyAction]
      simp

/-- Witness for C1: a commit-free prefix of the add-to-cart trace leaves
the stored database untouched, and the full trace commits the operation's
result. -/
theorem cart_ops_atomic_witness :
    (runActions ⟨dbW, [], []⟩
      [Action.insertCart { id := 4, user_id := 1, product_id := 2 }]).stored = dbW ∧
    (runActions ⟨dbW, [], []⟩ (addToCartTrace dbW 1 2)).stored =
      (add_to_cart dbW 1 2).2 :=
  ⟨(cart_ops_atomic dbW 1 2).1
      [Action.insertCart { id := 4, user_id := 1, product_id := 2 }]
      [Action.commit] (by decide) (by decide),
    (cart_ops_atomic dbW 1 2).2.2.2.2.1⟩

end ECommerce
